import Mathlib

/-!
Verification development for the settlement netting & collateral
optimization engine.

The Python sources are shallowly embedded:
  * `DataModels.py` entity records become Lean structures (floats as `ℚ`,
    ints as `Int`);
  * `Model.py`'s constraint compiler becomes a decidable feasibility
    predicate over an explicit assignment of the decision variables
    (`x` settlement booleans, `y` pledged-lot integers, `z` activation
    booleans, `need` continuous shortfall variables);
  * `DataInput.py`'s derivation steps become pure functions.
-/

namespace SettlementOpt

/-! ## Entity model (DataModels.py) -/

/-- `DataModels.Account`: cash position of one party. -/
structure Account where
  id : Int
  owner_id : Int
  initial_cash : ℚ
  credit_limit : ℚ
  deriving DecidableEq

/-- `DataModels.SecurityPosition`: one account's holdings of one security.
`id` is the security identifier; `(account_id, id)` is the true key. -/
structure SecurityPosition where
  id : Int
  account_id : Int
  initial_quantity : Int
  deriving DecidableEq

/-- `DataModels.Transaction`: one pending cash-for-securities transfer. -/
structure Transaction where
  id : Int
  cash_amount : ℚ
  weight : ℚ
  debit_account : Int
  credit_account : Int
  security_id : Int
  quantity : Int
  security_flow : Int
  deriving DecidableEq

/-- `DataModels.CollateralLink`: a standing facility letting
`associated_account` pledge `security_id` for cash credit. -/
structure CollateralLink where
  id : Int
  associated_account : Int
  lot_size : Int
  valuation : ℚ
  q_min : Int
  q_lim : Int
  triggered_transactions : List Int
  security_id : Int
  deriving DecidableEq

/-- `DataModels.AfterLink`: `t2` may settle only if `t1` settles. -/
structure AfterLink where
  t1 : Int
  t2 : Int
  deriving DecidableEq

/-- `DataModels.NTSPInput`: the assembled input bundle. -/
structure NTSPInput where
  transactions : List Transaction
  accounts : List Account
  collateral_links : List CollateralLink
  after_links : List AfterLink
  security_positions : List SecurityPosition
  deriving DecidableEq

/-! ## Decision-variable assignments

`Model.build_decision_variables` declares, per transaction, a boolean
settlement variable `x`; per collateral link, an integer lots variable
`y ∈ [0, q_lim]` and a boolean activation flag `z`; per account, a
continuous `need ∈ [0, Σ cash_amount over its debits]`.  A solver
output is modelled as a total valuation of these variables. -/

structure Assignment where
  x : Int → Bool
  y : Int → Int
  z : Int → Bool
  need : Int → ℚ

/-- 0/1 value of a boolean decision variable. -/
def b2q (b : Bool) : ℚ := if b then 1 else 0

/-! ## Constraint semantics (Model.py)

Each `solver.Add(...)` call of the base compiler becomes one decidable
inequality.  Sums built from the `T_debit` / `T_credit` /
`T_debit_sec` / `T_credit_sec` lookup dictionaries are expressed as
sums over the corresponding filtered transaction lists (identical
contents, in the same order, for bundles with unique ids). -/

/-- `debit_sum` of `Model.add_account_constraints`:
Σ cash_amount·x over transactions debiting account `a`. -/
def debitSum (d : NTSPInput) (x : Int → Bool) (a : Int) : ℚ :=
  ((d.transactions.filter (fun t => t.debit_account == a)).map
    (fun t => t.cash_amount * b2q (x t.id))).sum

/-- `credit_sum` of `Model.add_account_constraints`:
Σ cash_amount·x over transactions crediting account `a`. -/
def creditSum (d : NTSPInput) (x : Int → Bool) (a : Int) : ℚ :=
  ((d.transactions.filter (fun t => t.credit_account == a)).map
    (fun t => t.cash_amount * b2q (x t.id))).sum

/-- `collateral_expr` of `Model.add_account_constraints`:
Σ lot_size·valuation·(1 − 0.05)·y over collateral links owned by `a`.
The source applies the literal haircut factor `(1 - 0.05)`. -/
def collateralExpr (d : NTSPInput) (y : Int → Int) (a : Int) : ℚ :=
  ((d.collateral_links.filter (fun l => l.associated_account == a)).map
    (fun l => (l.lot_size : ℚ) * l.valuation * (1 - 5/100) * (y l.id : ℚ))).sum

/-- Upper bound of the `need` variable for account `a`
(`Model.build_decision_variables`): Σ cash_amount over its debits. -/
def needUB (d : NTSPInput) (a : Int) : ℚ :=
  ((d.transactions.filter (fun t => t.debit_account == a)).map
    (fun t => t.cash_amount)).sum

/-- The two `solver.Add` calls of the non-PAB branch of
`Model.add_account_constraints` plus the general credit-limit call,
for one account. -/
def accountOk (d : NTSPInput) (s : Assignment) (acc : Account) : Bool :=
  let ds := debitSum d s.x acc.id
  let cs := creditSum d s.x acc.id
  let ce := collateralExpr d s.y acc.id
  decide (s.need acc.id ≥ ds - cs - acc.initial_cash) &&
  decide (ds - cs ≤ acc.initial_cash + ce) &&
  decide (ce ≤ acc.credit_limit)

/-- `Model.add_after_link_constraints`: `x[t₂] ≤ x[t₁]`. -/
def afterLinkOk (s : Assignment) (al : AfterLink) : Bool :=
  decide (b2q (s.x al.t2) ≤ b2q (s.x al.t1))

/-- `Model.add_collateral_link_constraints` for one link:
`x[t] ≤ z[l]` for each triggered `t`; `z[l] ≤ Σ x` over triggered;
`lot_size·y[l] ≥ q_min·z[l]`; `lot_size·y[l] ≤ q_lim·z[l]`. -/
def collateralLinkOk (s : Assignment) (l : CollateralLink) : Bool :=
  (l.triggered_transactions.all
    (fun tid => decide (b2q (s.x tid) ≤ b2q (s.z l.id)))) &&
  decide (b2q (s.z l.id) ≤
    ((l.triggered_transactions.map (fun tid => b2q (s.x tid))).sum)) &&
  decide ((l.lot_size : ℚ) * (s.y l.id : ℚ) ≥ (l.q_min : ℚ) * b2q (s.z l.id)) &&
  decide ((l.lot_size : ℚ) * (s.y l.id : ℚ) ≤ (l.q_lim : ℚ) * b2q (s.z l.id))

/-- `T_debit_sec` of `Model.get_security_transaction_lookups`: the
implementation appends `t` to the bucket of position
`(t.credit_account, t.security_id)` — the `security_flow` field is not
consulted. -/
def secDebitTrans (d : NTSPInput) (accId secId : Int) : List Transaction :=
  d.transactions.filter (fun t => t.credit_account == accId && t.security_id == secId)

/-- `T_credit_sec` of `Model.get_security_transaction_lookups`: the
bucket of position `(t.debit_account, t.security_id)`. -/
def secCreditTrans (d : NTSPInput) (accId secId : Int) : List Transaction :=
  d.transactions.filter (fun t => t.debit_account == accId && t.security_id == secId)

/-- Pledged quantity against one position
(`collateral_qty` of `Model.add_security_position_constraints`):
Σ lot_size·y over links with matching account and security. -/
def collateralQty (d : NTSPInput) (y : Int → Int) (sp : SecurityPosition) : ℚ :=
  ((d.collateral_links.filter
      (fun l => l.associated_account == sp.account_id && l.security_id == sp.id)).map
    (fun l => (l.lot_size : ℚ) * (y l.id : ℚ))).sum

/-- `Model.add_security_position_constraints` for one position:
`debit_qty − credit_qty ≤ initial_quantity − collateral_qty`. -/
def securityPositionOk (d : NTSPInput) (s : Assignment) (sp : SecurityPosition) : Bool :=
  let dq := ((secDebitTrans d sp.account_id sp.id).map
    (fun t => (t.quantity : ℚ) * b2q (s.x t.id))).sum
  let cq := ((secCreditTrans d sp.account_id sp.id).map
    (fun t => (t.quantity : ℚ) * b2q (s.x t.id))).sum
  decide (dq - cq ≤ (sp.initial_quantity : ℚ) - collateralQty d s.y sp)

/-- Bounds of the declared decision variables
(`Model.build_decision_variables`): `y[l] ∈ [0, q_lim]`,
`need[a] ∈ [0, needUB a]`.  `x` and `z` are booleans by type. -/
def varBoundsOk (d : NTSPInput) (s : Assignment) : Bool :=
  (d.collateral_links.all
    (fun l => decide (0 ≤ s.y l.id) && decide (s.y l.id ≤ l.q_lim))) &&
  (d.accounts.all
    (fun a => decide (0 ≤ s.need a.id) && decide (s.need a.id ≤ needUB d a.id)))

/-- Conjunction of every `solver.Add` constraint the base compiler emits
(account, after-link, collateral-link, security-position families).
For input bundles whose entities carry only the declared fields, the
PAB / bank-deposit / state-muni / SBS branches of the source add
nothing (see the extended model below). -/
def constraintsOk (d : NTSPInput) (s : Assignment) : Bool :=
  (d.accounts.all (accountOk d s)) &&
  (d.after_links.all (afterLinkOk s)) &&
  (d.collateral_links.all (collateralLinkOk s)) &&
  (d.security_positions.all (securityPositionOk d s))

/-- Feasibility of an assignment for the compiled model: variable
bounds plus every emitted constraint. -/
def feasible (d : NTSPInput) (s : Assignment) : Bool :=
  varBoundsOk d s && constraintsOk d s

/-! ## Objective builder (Model.add_objective)

The source maximizes
`λ·Sum(w·a·x)·(1/Σ w·a) + (1−λ)·Sum(w·x)·(1/Σ w)`;
the two denominators are Python-level `sum`s over the full transaction
list, evaluated before the solver sees the expression.  A zero
denominator raises `ZeroDivisionError` inside `add_objective`, which is
modelled as `none`. -/
def addObjective (d : NTSPInput) (x : Int → Bool) (lam : ℚ) : Option ℚ :=
  let den1 : ℚ := ((d.transactions.map (fun t => t.weight * t.cash_amount)).sum)
  let den2 : ℚ := ((d.transactions.map (fun t => t.weight)).sum)
  if den1 = 0 ∨ den2 = 0 then none
  else some
    (lam * ((d.transactions.map
        (fun t => t.weight * t.cash_amount * b2q (x t.id))).sum) * (1 / den1)
      + (1 - lam) * ((d.transactions.map
        (fun t => t.weight * b2q (x t.id))).sum) * (1 / den2))

/-! ## Metrics extraction (Model.solve_ntsp, success branch) -/

structure Metrics where
  total_cashflow : ℚ
  settle_rate : ℚ
  total_loan : ℚ
  deriving DecidableEq

/-- The metrics computed by `Model.solve_ntsp` after a successful solve:
`total_cashflow` accumulates `int(x)·cash_amount` per transaction;
`settle_rate` accumulates `int(x)` and divides by the transaction count;
`total_loan` iterates over `security_positions` and, per position, sums
`lot_size·y` over the collateral links matching that position's
`(account_id, id)`. -/
def extractMetrics (d : NTSPInput) (x : Int → Bool) (y : Int → Int) : Metrics :=
  { total_cashflow := ((d.transactions.map
      (fun t => b2q (x t.id) * t.cash_amount)).sum)
    settle_rate := ((d.transactions.map (fun t => b2q (x t.id))).sum)
      / (d.transactions.length : ℚ)
    total_loan := ((d.security_positions.map (fun sp => collateralQty d y sp)).sum) }

/-! ## Triggered-transaction assembly (DataInput.py)

Both synthesis modes finish by executing, for each collateral link,
`cl.triggered_transactions = [t.id for t in trans if t.security_id == cl.security_id]`
(`ntsp_input_from_batch` and step 7 of `generate_ntsp_input` are
textually identical here). -/

def setTriggered (trans : List Transaction) (cl : CollateralLink) : CollateralLink :=
  { cl with triggered_transactions :=
      (trans.filter (fun t => t.security_id == cl.security_id)).map (fun t => t.id) }

def assembleTriggered (trans : List Transaction) (links : List CollateralLink) :
    List CollateralLink :=
  links.map (setTriggered trans)

/-! ## Spec-side statements

Definitions in this section follow the spec's words, not the source;
they exist only to be compared against the source-derived model. -/

/-- Spec-side collateral value of account `a`:
`Σ lot_size·valuation·y` over its links, with no further coefficient. -/
def specCollateralSum (d : NTSPInput) (y : Int → Int) (a : Int) : ℚ :=
  ((d.collateral_links.filter (fun l => l.associated_account == a)).map
    (fun l => (l.lot_size : ℚ) * l.valuation * (y l.id : ℚ))).sum

/-- Spec-side account constraints as the claim states them:
`debit − credit ≤ initial_cash + Σ lot_size·valuation·y` and
`Σ lot_size·valuation·y ≤ credit_limit`, no haircut coefficient. -/
def specCashConstraintsOk (d : NTSPInput) (s : Assignment) : Bool :=
  d.accounts.all (fun acc =>
    decide (debitSum d s.x acc.id - creditSum d s.x acc.id
      ≤ acc.initial_cash + specCollateralSum d s.y acc.id) &&
    decide (specCollateralSum d s.y acc.id ≤ acc.credit_limit))

/-- Spec-side outflow transactions on a position, per the entity model's
`security_flow = -1` convention: same security, involving the
position's account, with `security_flow = -1`. -/
def specOutflowTrans (d : NTSPInput) (sp : SecurityPosition) : List Transaction :=
  d.transactions.filter (fun t =>
    (t.debit_account == sp.account_id || t.credit_account == sp.account_id) &&
    t.security_id == sp.id && t.security_flow == -1)

/-- Spec-side inflow transactions on a position (`security_flow = +1`). -/
def specInflowTrans (d : NTSPInput) (sp : SecurityPosition) : List Transaction :=
  d.transactions.filter (fun t =>
    (t.debit_account == sp.account_id || t.credit_account == sp.account_id) &&
    t.security_id == sp.id && t.security_flow == 1)

/-- Spec-side position constraint as the claim states it: flow-based
outflow minus inflow bounded by free inventory. -/
def specPositionConstraintsOk (d : NTSPInput) (s : Assignment) : Bool :=
  d.security_positions.all (fun sp =>
    decide (((specOutflowTrans d sp).map
        (fun t => (t.quantity : ℚ) * b2q (s.x t.id))).sum
      - ((specInflowTrans d sp).map
        (fun t => (t.quantity : ℚ) * b2q (s.x t.id))).sum
      ≤ (sp.initial_quantity : ℚ) - collateralQty d s.y sp))

/-- Spec-side objective:
`λ·(Σ w·a·x)/(Σ w·a) + (1−λ)·(Σ w·x)/(Σ w)` with constant denominators
over the full transaction set. -/
def specObjective (d : NTSPInput) (x : Int → Bool) (lam : ℚ) : ℚ :=
  lam * ((d.transactions.map
      (fun t => t.weight * t.cash_amount * b2q (x t.id))).sum)
    / ((d.transactions.map (fun t => t.weight * t.cash_amount)).sum)
  + (1 - lam) * ((d.transactions.map (fun t => t.weight * b2q (x t.id))).sum)
    / ((d.transactions.map (fun t => t.weight)).sum)

/-- Spec-side `total_loan` as the claim states it: the sum over all
collateral links of `lot_size · y`. -/
def specTotalLoan (d : NTSPInput) (y : Int → Int) : ℚ :=
  ((d.collateral_links.map (fun l => (l.lot_size : ℚ) * (y l.id : ℚ))).sum)

/-! ## Batch-derived transaction construction
(DataInput._transactions_from_csv)

A ledger row carries `{security, quantity, price, from, to}`; opaque
party and security identifiers are modelled as `Int` and Python's
string `hash` as an arbitrary function `Int → Int`.  The constructor
call `Transaction(id=…, cash_amount=…, weight=…, debit_account=…,
credit_account=…, security_id=…, quantity=…)` is modelled as the set
of keyword arguments it passes; `DataModels.Transaction` declares
every field — `security_flow` included — as required
(`Field(...)`), and pydantic rejects a call missing a required
field. -/

structure BatchRow where
  security : Int
  quantity : Int
  price : ℚ
  fromParty : Int
  toParty : Int
  deriving DecidableEq

/-- `degree` of a row: the number of ledger rows in which either
counterparty of the row appears on either side. -/
def rowDegree (batch : List BatchRow) (r : BatchRow) : Nat :=
  (batch.filter (fun q =>
    q.fromParty == r.fromParty || q.fromParty == r.toParty ||
    q.toParty == r.fromParty || q.toParty == r.toParty)).length

/-- The `priority` expression of `_transactions_from_csv`:
`0.5·|ln(cash_amount^0.25 · degree)|` (real arithmetic). -/
noncomputable def rowWeight (batch : List BatchRow) (r : BatchRow) : ℝ :=
  (1/2) * |Real.log ((((r.price * (r.quantity : ℚ)) : ℚ) : ℝ) ^ ((1:ℝ)/4)
    * (rowDegree batch r : ℝ))|

/-- The keyword arguments of one pydantic `Transaction(...)` call. -/
structure TransactionKwargs where
  id : Option Int
  cash_amount : Option ℝ
  weight : Option ℝ
  debit_account : Option Int
  credit_account : Option Int
  security_id : Option Int
  quantity : Option Int
  security_flow : Option Int

/-- Pydantic's required-field validation for `DataModels.Transaction`:
a constructor call is accepted only when every declared field is
supplied. -/
def pydanticAccepts (k : TransactionKwargs) : Bool :=
  k.id.isSome && k.cash_amount.isSome && k.weight.isSome &&
  k.debit_account.isSome && k.credit_account.isSome &&
  k.security_id.isSome && k.quantity.isSome && k.security_flow.isSome

/-- The arguments `_transactions_from_csv` passes for one ledger row:
`id=index`, `cash_amount = price·quantity`, `weight = priority`,
`debit_account = hash(to)`, `credit_account = hash(from)`,
`security_id = hash(security)`, `quantity = int(quantity)` — and no
`security_flow` keyword. -/
noncomputable def kwargsOfRow (batch : List BatchRow) (hash : Int → Int)
    (idx : Int) (r : BatchRow) : TransactionKwargs :=
  { id := some idx
    cash_amount := some (((r.price * (r.quantity : ℚ)) : ℚ) : ℝ)
    weight := some (rowWeight batch r)
    debit_account := some (hash r.toParty)
    credit_account := some (hash r.fromParty)
    security_id := some (hash r.security)
    quantity := some r.quantity
    security_flow := none }

/-! ## Extended entity model with optional regulatory attributes

`Model.py` conditions several constraint families on `hasattr` checks
for attributes the entity model never declares (`is_pab`, `has_sbs`,
`bank_equity_capital`, `state_muni_holdings`, `sbs_reserve_requirement`,
`non_cleared_sbs_reserve` on accounts; `is_sbs`, `is_cleared` on
transactions; `is_non_us_gov` on positions).  Optional attributes are
modelled as `Option` fields, `hasattr` as `Option.isSome`, and
`hasattr(e, f) and e.f` as `hasTrue`. -/

/-- Python's `hasattr(e, f) and e.f` on an optional boolean attribute. -/
def hasTrue : Option Bool → Bool
  | some b => b
  | none => false

structure ExtAccount where
  id : Int
  owner_id : Int
  initial_cash : ℚ
  credit_limit : ℚ
  is_pab : Option Bool
  has_sbs : Option Bool
  bank_equity_capital : Option ℚ
  state_muni_holdings : Option (List (Int × ℚ))
  sbs_reserve_requirement : Option ℚ
  non_cleared_sbs_reserve : Option ℚ
  deriving DecidableEq

structure ExtTransaction where
  id : Int
  cash_amount : ℚ
  weight : ℚ
  debit_account : Int
  credit_account : Int
  security_id : Int
  quantity : Int
  security_flow : Int
  is_sbs : Option Bool
  is_cleared : Option Bool
  deriving DecidableEq

structure ExtPosition where
  id : Int
  account_id : Int
  initial_quantity : Int
  is_non_us_gov : Option Bool
  deriving DecidableEq

structure ExtInput where
  transactions : List ExtTransaction
  accounts : List ExtAccount
  collateral_links : List CollateralLink
  after_links : List AfterLink
  security_positions : List ExtPosition
  deriving DecidableEq

/-- Decision variables of the full compiler; `pab_need` and `sbs_seg`
are consulted only for accounts whose optional flags are set. -/
structure ExtAssignment where
  x : Int → Bool
  y : Int → Int
  z : Int → Bool
  need : Int → ℚ
  pab_need : Int → ℚ
  sbs_seg : Int → Bool

def ExtAccount.core (a : ExtAccount) : Account :=
  ⟨a.id, a.owner_id, a.initial_cash, a.credit_limit⟩

def ExtTransaction.core (t : ExtTransaction) : Transaction :=
  ⟨t.id, t.cash_amount, t.weight, t.debit_account, t.credit_account,
   t.security_id, t.quantity, t.security_flow⟩

def ExtPosition.core (p : ExtPosition) : SecurityPosition :=
  ⟨p.id, p.account_id, p.initial_quantity⟩

/-- Forgetting the optional attributes of every entity. -/
def ExtInput.core (d : ExtInput) : NTSPInput :=
  { transactions := d.transactions.map ExtTransaction.core
    accounts := d.accounts.map ExtAccount.core
    collateral_links := d.collateral_links
    after_links := d.after_links
    security_positions := d.security_positions.map ExtPosition.core }

/-- Restriction of a full assignment to the base variables. -/
def ExtAssignment.core (s : ExtAssignment) : Assignment :=
  ⟨s.x, s.y, s.z, s.need⟩

/-- `pab_need` variables created by `build_decision_variables`: one per
account with `hasattr(acc, 'is_pab') and acc.is_pab`. -/
def pabNeedIds (d : ExtInput) : List Int :=
  (d.accounts.filter (fun a => hasTrue a.is_pab)).map (fun a => a.id)

/-- `sbs_seg` variables created by `build_decision_variables`: one per
account with `hasattr(acc, 'has_sbs') and acc.has_sbs`. -/
def sbsSegIds (d : ExtInput) : List Int :=
  (d.accounts.filter (fun a => hasTrue a.has_sbs)).map (fun a => a.id)

def extDebitSum (d : ExtInput) (x : Int → Bool) (a : Int) : ℚ :=
  ((d.transactions.filter (fun t => t.debit_account == a)).map
    (fun t => t.cash_amount * b2q (x t.id))).sum

def extCreditSum (d : ExtInput) (x : Int → Bool) (a : Int) : ℚ :=
  ((d.transactions.filter (fun t => t.credit_account == a)).map
    (fun t => t.cash_amount * b2q (x t.id))).sum

def extCollateralExpr (d : ExtInput) (y : Int → Int) (a : Int) : ℚ :=
  ((d.collateral_links.filter (fun l => l.associated_account == a)).map
    (fun l => (l.lot_size : ℚ) * l.valuation * (1 - 5/100) * (y l.id : ℚ))).sum

/-- `Model.add_account_constraints` with every conditional branch:
PAB accounts get `pab_need` in the shortfall constraint, accounts with
`bank_equity_capital` a 15% concentration cap, accounts with
`state_muni_holdings` per-issuer 2% and aggregate 10% caps. -/
def extAccountOk (d : ExtInput) (s : ExtAssignment) (acc : ExtAccount) : Bool :=
  let ds := extDebitSum d s.x acc.id
  let cs := extCreditSum d s.x acc.id
  let ce := extCollateralExpr d s.y acc.id
  (if hasTrue acc.is_pab then
    decide (s.pab_need acc.id ≥ ds - cs - acc.initial_cash) &&
    decide (ds - cs ≤ acc.initial_cash + ce)
  else
    decide (s.need acc.id ≥ ds - cs - acc.initial_cash) &&
    decide (ds - cs ≤ acc.initial_cash + ce)) &&
  (match acc.bank_equity_capital with
   | some cap => decide (ce ≤ (15/100) * cap)
   | none => true) &&
  (match acc.state_muni_holdings with
   | some holdings =>
     (holdings.all (fun p => decide (p.2 ≤ (2/100) * s.need acc.id))) &&
     decide (((holdings.map (fun p => p.2)).sum) ≤ (10/100) * s.need acc.id)
   | none => true) &&
  decide (ce ≤ acc.credit_limit)

def extSecDebitTrans (d : ExtInput) (accId secId : Int) : List ExtTransaction :=
  d.transactions.filter (fun t => t.credit_account == accId && t.security_id == secId)

def extSecCreditTrans (d : ExtInput) (accId secId : Int) : List ExtTransaction :=
  d.transactions.filter (fun t => t.debit_account == accId && t.security_id == secId)

def extCollateralQty (d : ExtInput) (y : Int → Int) (p : ExtPosition) : ℚ :=
  ((d.collateral_links.filter
      (fun l => l.associated_account == p.account_id && l.security_id == p.id)).map
    (fun l => (l.lot_size : ℚ) * (y l.id : ℚ))).sum

def extSecurityPositionOk (d : ExtInput) (s : ExtAssignment) (p : ExtPosition) : Bool :=
  let dq := ((extSecDebitTrans d p.account_id p.id).map
    (fun t => (t.quantity : ℚ) * b2q (s.x t.id))).sum
  let cq := ((extSecCreditTrans d p.account_id p.id).map
    (fun t => (t.quantity : ℚ) * b2q (s.x t.id))).sum
  decide (dq - cq ≤ (p.initial_quantity : ℚ) - extCollateralQty d s.y p)

/-- Python's `hasattr(t, 'is_cleared') and not t.is_cleared`. -/
def isNonCleared (t : ExtTransaction) : Bool :=
  match t.is_cleared with
  | some c => !c
  | none => false

/-- `Model.add_sbs_segregation_constraints`: the list of constraints
(as truth values) the SBS pass adds, one `solver.Add` per entry.
Python raises `ZeroDivisionError` when `acc_sbs_transactions` is empty
inside an active `has_sbs` branch; here `ℚ` division by zero yields
`0`, which only matters inside branches the plain model never takes. -/
def sbsPassConstraints (d : ExtInput) (s : ExtAssignment) : List Bool :=
  let sbs_transactions := d.transactions.filter (fun t => hasTrue t.is_sbs)
  d.accounts.flatMap (fun acc =>
    if hasTrue acc.has_sbs then
      let acc_sbs := sbs_transactions.filter
        (fun t => t.debit_account == acc.id || t.credit_account == acc.id)
      [decide (b2q (s.sbs_seg acc.id) ≥
        ((acc_sbs.map (fun t => b2q (s.x t.id))).sum) / (acc_sbs.length : ℚ))]
      ++ (match acc.sbs_reserve_requirement with
          | some r => [decide (s.need acc.id ≥ r * b2q (s.sbs_seg acc.id))]
          | none => [])
      ++ (let ncl := acc_sbs.filter isNonCleared
          if ncl.isEmpty then []
          else
            (match acc.non_cleared_sbs_reserve with
             | some r => [decide (s.need acc.id ≥
                 r * ((ncl.map (fun t => b2q (s.x t.id))).sum))]
             | none => [])
            ++ [decide (b2q (s.sbs_seg acc.id) ≥
                 ((ncl.map (fun t => b2q (s.x t.id))).sum) / (ncl.length : ℚ))])
      ++ ((d.transactions.filter (fun t =>
            (t.debit_account == acc.id || t.credit_account == acc.id) &&
            !t.is_sbs.isSome)).map
          (fun t => decide (b2q (s.x t.id) ≤ 1 - b2q (s.sbs_seg acc.id))))
    else [])

/-- Every `solver.Add` constraint of the full compiler (all branches). -/
def extConstraintsOk (d : ExtInput) (s : ExtAssignment) : Bool :=
  (d.accounts.all (extAccountOk d s)) &&
  (d.after_links.all (afterLinkOk s.core)) &&
  (d.collateral_links.all (collateralLinkOk s.core)) &&
  (d.security_positions.all (extSecurityPositionOk d s)) &&
  ((sbsPassConstraints d s).all (fun c => c))

def plainAccount (a : ExtAccount) : Bool :=
  a.is_pab.isNone && a.has_sbs.isNone && a.bank_equity_capital.isNone &&
  a.state_muni_holdings.isNone && a.sbs_reserve_requirement.isNone &&
  a.non_cleared_sbs_reserve.isNone

def plainTransaction (t : ExtTransaction) : Bool :=
  t.is_sbs.isNone && t.is_cleared.isNone

def plainPosition (p : ExtPosition) : Bool :=
  p.is_non_us_gov.isNone

/-- A bundle whose entities carry only the declared fields. -/
def plainInput (d : ExtInput) : Bool :=
  d.accounts.all plainAccount && d.transactions.all plainTransaction &&
  d.security_positions.all plainPosition

/-! ## The compiled model never reads `security_flow`

Replacing every transaction's `security_flow` by arbitrary values
leaves the compiled model unchanged: no constraint family consults the
field. -/

/-- The same bundle with every transaction's `security_flow` replaced. -/
def setFlows (d : NTSPInput) (f : Transaction → Int) : NTSPInput :=
  { d with
    transactions := d.transactions.map (fun t => { t with security_flow := f t }) }

/-! ## Concrete instances -/

/-- The all-zero assignment: nothing settles, nothing is pledged. -/
def zeroAssign : Assignment :=
  ⟨fun _ => false, fun _ => 0, fun _ => false, fun _ => 0⟩

def cxB1 : NTSPInput :=
  { transactions := [⟨0, 95, 1, 0, 1, 101, 10, -1⟩]
    accounts := [⟨0, 0, 0, 95⟩, ⟨1, 1, 1000, 0⟩]
    collateral_links := [⟨0, 0, 1, 100, 0, 1, [0], 101⟩]
    after_links := []
    security_positions := [⟨101, 0, 100⟩] }

def cxS1 : Assignment :=
  ⟨fun _ => true, fun _ => 1, fun _ => true, fun a => if a == 0 then 95 else 0⟩

def cxB2 : NTSPInput :=
  { transactions := [⟨0, 10, 1, 0, 1, 101, 10, -1⟩]
    accounts := [⟨0, 0, 1000, 0⟩, ⟨1, 1, 1000, 0⟩]
    collateral_links := []
    after_links := []
    security_positions := [⟨101, 0, 0⟩] }

def cxS2 : Assignment :=
  ⟨fun _ => true, fun _ => 0, fun _ => false, fun a => if a == 0 then 10 else 0⟩

def wL3 : CollateralLink := ⟨0, 0, 2, 1, 2, 4, [0], 101⟩

def wB3 : NTSPInput :=
  { transactions := [⟨0, 10, 1, 0, 1, 101, 10, -1⟩]
    accounts := [⟨0, 0, 1000, 1000⟩, ⟨1, 1, 1000, 1000⟩]
    collateral_links := [wL3]
    after_links := []
    security_positions := [⟨101, 0, 100⟩] }

def wS3 : Assignment :=
  ⟨fun _ => true, fun _ => 1, fun _ => true, fun a => if a == 0 then 10 else 0⟩

def cxB4 : NTSPInput :=
  { transactions := [⟨0, 10, 1, 0, 1, 101, 10, -1⟩]
    accounts := [⟨0, 0, 100, 0⟩, ⟨1, 1, 0, 0⟩]
    collateral_links := [⟨0, 0, 2, 0, 2, 2, [0], 101⟩]
    after_links := []
    security_positions := [] }

def cxS4 : Assignment :=
  ⟨fun _ => true, fun _ => 1, fun _ => true, fun a => if a == 0 then 10 else 0⟩

def wB5 : NTSPInput :=
  { transactions := [⟨0, 10, 1, 0, 1, 101, 10, -1⟩, ⟨1, 20, 2, 1, 0, 101, 5, -1⟩]
    accounts := [⟨0, 0, 1000, 0⟩, ⟨1, 1, 1000, 0⟩]
    collateral_links := []
    after_links := []
    security_positions := [⟨101, 0, 100⟩] }

def cxB6 : NTSPInput :=
  { transactions := [⟨0, 7, 0, 0, 0, 101, 10, -1⟩]
    accounts := [⟨0, 0, 5, 0⟩]
    collateral_links := [⟨0, 0, 1, 1, 5, 3, [], 101⟩]
    after_links := []
    security_positions := [⟨101, 0, 3⟩] }

def cxS6 : Assignment :=
  ⟨fun _ => true, fun _ => 0, fun _ => false, fun a => if a == 0 then 2 else 0⟩

def cxRow7 : BatchRow := ⟨7, 10, 39/2, 1, 2⟩

def cxBatch7 : List BatchRow := [cxRow7]

def wB8 : NTSPInput :=
  { transactions := [⟨0, 10, 1, 0, 1, 101, 10, -1⟩, ⟨1, 10, 1, 0, 1, 101, 10, -1⟩]
    accounts := [⟨0, 0, 1000, 0⟩, ⟨1, 1, 1000, 0⟩]
    collateral_links := []
    after_links := [⟨0, 1⟩]
    security_positions := [⟨101, 0, 100⟩] }

def wS8 : Assignment :=
  ⟨fun i => i == 0, fun _ => 0, fun _ => false, fun a => if a == 0 then 10 else 0⟩

def wTrans9 : List Transaction :=
  [⟨5, 10, 1, 0, 1, 101, 10, -1⟩, ⟨6, 20, 1, 1, 0, 202, 5, -1⟩]

def wL9 : CollateralLink := ⟨0, 3, 1, 1, 0, 1, [], 101⟩

def wE10 : ExtInput :=
  { transactions := [⟨0, 10, 1, 0, 1, 101, 10, -1, none, none⟩]
    accounts := [⟨0, 0, 1000, 0, none, none, none, none, none, none⟩,
                 ⟨1, 1, 1000, 0, none, none, none, none, none, none⟩]
    collateral_links := []
    after_links := []
    security_positions := [⟨101, 0, 100, none⟩] }

def wES10 : ExtAssignment :=
  ⟨fun _ => false, fun _ => 0, fun _ => false, fun _ => 0, fun _ => 0, fun _ => false⟩

/-! ## List-arithmetic lemmas -/

lemma sum_map_zero {α : Type} (L : List α) : ((L.map (fun _ => (0:ℚ))).sum) = 0 := by
  induction L with
  | nil => rfl
  | cons a L ih => simp [ih]

lemma sum_map_add {α : Type} (L : List α) (f g : α → ℚ) :
    ((L.map (fun a => f a + g a)).sum) = ((L.map f).sum) + ((L.map g).sum) := by
  induction L with
  | nil => simp
  | cons a L ih => simp only [List.map_cons, List.sum_cons, ih]; ring

lemma sum_swap {α β : Type} (P : List α) (L : List β) (g : α → β → ℚ) :
    ((P.map (fun p => ((L.map (g p)).sum))).sum)
      = ((L.map (fun l => ((P.map (fun p => g p l)).sum))).sum) := by
  induction P with
  | nil => simp [sum_map_zero]
  | cons p P ih => simp only [List.map_cons, List.sum_cons, ih, sum_map_add]

lemma sum_filter_ite {α : Type} (p : α → Bool) (f : α → ℚ) (L : List α) :
    (((L.filter p).map f).sum) = ((L.map (fun a => if p a then f a else 0)).sum) := by
  induction L with
  | nil => rfl
  | cons a L ih => cases h : p a <;> simp [List.filter_cons, h, ih]

lemma sum_b2q_mul (x : Int → Bool) (f : Transaction → ℚ) (L : List Transaction) :
    ((L.map (fun t => b2q (x t.id) * f t)).sum) = (((L.filter (fun t => x t.id)).map f).sum) := by
  induction L with
  | nil => rfl
  | cons t L ih =>
    simp only [List.map_cons, List.sum_cons, ih]
    cases h : x t.id <;> simp [List.filter_cons, h, b2q]

lemma sum_b2q_count (x : Int → Bool) (L : List Transaction) :
    ((L.map (fun t => b2q (x t.id))).sum) = ((L.filter (fun t => x t.id)).length : ℚ) := by
  induction L with
  | nil => rfl
  | cons t L ih =>
    simp only [List.map_cons, List.sum_cons, ih]
    cases h : x t.id <;> simp [List.filter_cons, h, b2q, add_comm]

lemma b2q_nonneg (b : Bool) : 0 ≤ b2q b := by
  cases b <;> simp [b2q]

lemma exists_true_of_sum_pos (f : Int → Bool) (L : List Int)
    (h : 0 < ((L.map (fun i => b2q (f i))).sum)) : ∃ i ∈ L, f i = true := by
  induction L with
  | nil => simp [b2q] at h
  | cons a L ih =>
    cases ha : f a with
    | true => exact ⟨a, List.mem_cons_self a L, ha⟩
    | false =>
      simp only [List.map_cons, List.sum_cons, ha, b2q, if_neg Bool.false_ne_true,
        zero_add] at h
      obtain ⟨i, hi, hfi⟩ := ih h
      exact ⟨i, List.mem_cons_of_mem a hi, hfi⟩

lemma flatMap_nil_of {α β : Type} (L : List α) (g : α → List β)
    (h : ∀ a ∈ L, g a = []) : L.flatMap g = [] := by
  induction L with
  | nil => rfl
  | cons a L ih =>
    simp only [List.flatMap_cons, h a (List.mem_cons_self a L), List.nil_append]
    exact ih (fun b hb => h b (List.mem_cons_of_mem a hb))

lemma filter_map_comm {α β : Type} (e : α → β) (p : β → Bool) (L : List α) :
    (L.map e).filter p = (L.filter (fun a => p (e a))).map e := by
  induction L with
  | nil => rfl
  | cons a L ih =>
    simp only [List.map_cons, List.filter_cons]
    cases h : p (e a) <;> simp [h, ih]

/-! ## The plain-bundle model coincides with the base model -/

lemma debitSum_core (d : ExtInput) (x : Int → Bool) (a : Int) :
    debitSum d.core x a = extDebitSum d x a := by
  unfold debitSum extDebitSum ExtInput.core
  rw [filter_map_comm]
  simp only [List.map_map]
  rfl

lemma creditSum_core (d : ExtInput) (x : Int → Bool) (a : Int) :
    creditSum d.core x a = extCreditSum d x a := by
  unfold creditSum extCreditSum ExtInput.core
  rw [filter_map_comm]
  simp only [List.map_map]
  rfl

lemma collateralExpr_core (d : ExtInput) (y : Int → Int) (a : Int) :
    collateralExpr d.core y a = extCollateralExpr d y a := rfl

lemma accountOk_core (d : ExtInput) (s : ExtAssignment) (a : ExtAccount)
    (ha : plainAccount a = true) :
    accountOk d.core s.core a.core = extAccountOk d s a := by
  simp only [plainAccount, Bool.and_eq_true, Option.isNone_iff_eq_none] at ha
  obtain ⟨⟨⟨⟨⟨h1, h2⟩, h3⟩, h4⟩, h5⟩, h6⟩ := ha
  simp only [accountOk, extAccountOk, debitSum_core, creditSum_core, collateralExpr_core,
    h1, h3, h4, hasTrue, Bool.false_eq_true, if_false, Bool.and_true, Bool.true_and]
  rfl

lemma positionOk_core (d : ExtInput) (s : ExtAssignment) (p : ExtPosition) :
    securityPositionOk d.core s.core p.core = extSecurityPositionOk d s p := by
  simp only [securityPositionOk, extSecurityPositionOk, secDebitTrans, extSecDebitTrans,
    secCreditTrans, extSecCreditTrans, collateralQty, extCollateralQty, ExtInput.core]
  rw [decide_eq_decide]
  rw [filter_map_comm, filter_map_comm]
  simp only [List.map_map]
  exact Iff.rfl

lemma sbsPass_plain (d : ExtInput) (s : ExtAssignment)
    (h : ∀ a ∈ d.accounts, a.has_sbs = none) :
    sbsPassConstraints d s = [] := by
  unfold sbsPassConstraints
  exact flatMap_nil_of _ _ (fun a hmem => by simp [h a hmem, hasTrue])

/-! ## Per-position loan aggregation -/

/-- With pairwise-distinct `(account_id, id)` position keys, at most one
position matches a given collateral link, so the indicator sum over
positions collapses to an `any` test. -/
lemma sum_match_unique (l : CollateralLink) (c : ℚ) (P : List SecurityPosition)
    (hP : P.Pairwise (fun p q => ¬(p.account_id = q.account_id ∧ p.id = q.id))) :
    ((P.map (fun sp =>
        if l.associated_account == sp.account_id && l.security_id == sp.id then c else 0)).sum)
      = if P.any (fun sp =>
          l.associated_account == sp.account_id && l.security_id == sp.id) then c else 0 := by
  induction P with
  | nil => simp
  | cons p P ih =>
    rcases List.pairwise_cons.1 hP with ⟨hp, hP'⟩
    cases hm : (l.associated_account == p.account_id && l.security_id == p.id) with
    | false =>
      rw [List.map_cons, List.sum_cons, List.any_cons, hm, ih hP']
      simp
    | true =>
      have hmp : l.associated_account = p.account_id ∧ l.security_id = p.id := by
        simpa [Bool.and_eq_true, beq_iff_eq] using hm
      have hzero : ∀ q ∈ P,
          (l.associated_account == q.account_id && l.security_id == q.id) = false := by
        intro q hq
        cases hq' : (l.associated_account == q.account_id && l.security_id == q.id) with
        | false => rfl
        | true =>
          have hmq : l.associated_account = q.account_id ∧ l.security_id = q.id := by
            simpa [Bool.and_eq_true, beq_iff_eq] using hq'
          exact absurd ⟨hmp.1 ▸ hmq.1, hmp.2 ▸ hmq.2⟩ (hp q hq)
      have htail : ((P.map (fun sp =>
          if l.associated_account == sp.account_id && l.security_id == sp.id then c else 0)).sum)
            = 0 := by
        rw [← sum_map_zero P]
        congr 1
        exact List.map_congr_left (fun q hq => by rw [hzero q hq]; simp)
      rw [List.map_cons, List.sum_cons, List.any_cons, hm, htail]
      simp

/-- The per-position aggregation `solve_ntsp` performs for `total_loan`
equals a sum over the collateral links that match some position. -/
lemma total_loan_aggregation (d : NTSPInput) (y : Int → Int)
    (hP : d.security_positions.Pairwise
      (fun p q => ¬(p.account_id = q.account_id ∧ p.id = q.id))) :
    ((d.security_positions.map (fun sp => collateralQty d y sp)).sum)
      = (((d.collateral_links.filter (fun l => d.security_positions.any
          (fun sp => l.associated_account == sp.account_id && l.security_id == sp.id))).map
            (fun l => (l.lot_size : ℚ) * (y l.id : ℚ))).sum) := by
  have step1 : ((d.security_positions.map (fun sp => collateralQty d y sp)).sum)
      = ((d.security_positions.map (fun sp => ((d.collateral_links.map (fun l =>
          if l.associated_account == sp.account_id && l.security_id == sp.id
          then (l.lot_size : ℚ) * (y l.id : ℚ) else 0)).sum))).sum) := by
    congr 1
    exact List.map_congr_left (fun sp _ => by
      unfold collateralQty
      exact sum_filter_ite _ _ _)
  rw [step1, sum_swap, sum_filter_ite]
  congr 1
  exact List.map_congr_left (fun l _ => sum_match_unique l _ _ hP)

lemma sum_map_mul_left {α : Type} (L : List α) (c : ℚ) (f : α → ℚ) :
    ((L.map (fun a => c * f a)).sum) = c * ((L.map f).sum) := by
  induction L with
  | nil => simp
  | cons a L ih => simp only [List.map_cons, List.sum_cons, ih]; ring

/-- The collateral expression of `add_account_constraints` is the plain
`Σ lot_size·valuation·y` scaled by the haircut factor `1 − 0.05`. -/
lemma collateralExpr_haircut (d : NTSPInput) (y : Int → Int) (a : Int) :
    collateralExpr d y a = (1 - 5/100) * specCollateralSum d y a := by
  unfold collateralExpr specCollateralSum
  rw [← sum_map_mul_left]
  exact congrArg List.sum (List.map_congr_left (fun l _ => by ring))

lemma all_map_comp {α β : Type} (e : α → β) (p : β → Bool) (L : List α) :
    (L.map e).all p = L.all (fun a => p (e a)) := by
  induction L with
  | nil => rfl
  | cons a L ih => simp only [List.map_cons, List.all_cons, ih]

lemma all_congr_mem {α : Type} (L : List α) (p q : α → Bool)
    (h : ∀ a ∈ L, p a = q a) : L.all p = L.all q := by
  induction L with
  | nil => rfl
  | cons a L ih =>
    simp only [List.all_cons, h a (List.mem_cons_self a L)]
    rw [ih (fun b hb => h b (List.mem_cons_of_mem a hb))]

lemma setFlows_debitSum (d : NTSPInput) (f : Transaction → Int) (x : Int → Bool) (a : Int) :
    debitSum (setFlows d f) x a = debitSum d x a := by
  simp only [debitSum, setFlows]
  rw [filter_map_comm]
  simp only [List.map_map]
  rfl

lemma setFlows_creditSum (d : NTSPInput) (f : Transaction → Int) (x : Int → Bool) (a : Int) :
    creditSum (setFlows d f) x a = creditSum d x a := by
  simp only [creditSum, setFlows]
  rw [filter_map_comm]
  simp only [List.map_map]
  rfl

lemma setFlows_needUB (d : NTSPInput) (f : Transaction → Int) (a : Int) :
    needUB (setFlows d f) a = needUB d a := by
  simp only [needUB, setFlows]
  rw [filter_map_comm]
  simp only [List.map_map]
  rfl

lemma accountOk_setFlows (d : NTSPInput) (f : Transaction → Int) (s : Assignment)
    (acc : Account) : accountOk (setFlows d f) s acc = accountOk d s acc := by
  rw [Bool.eq_iff_iff]
  simp only [accountOk, Bool.and_eq_true, decide_eq_true_eq]
  rw [setFlows_debitSum, setFlows_creditSum,
    show collateralExpr (setFlows d f) s.y acc.id = collateralExpr d s.y acc.id from rfl]

lemma positionOk_setFlows (d : NTSPInput) (f : Transaction → Int) (s : Assignment)
    (sp : SecurityPosition) :
    securityPositionOk (setFlows d f) s sp = securityPositionOk d s sp := by
  simp only [securityPositionOk, secDebitTrans, secCreditTrans, collateralQty, setFlows]
  rw [decide_eq_decide]
  rw [filter_map_comm, filter_map_comm]
  simp only [List.map_map]
  exact Iff.rfl

lemma feasible_setFlows (d : NTSPInput) (f : Transaction → Int) (s : Assignment) :
    feasible (setFlows d f) s = feasible d s := by
  simp only [feasible, varBoundsOk, constraintsOk]
  rw [show (setFlows d f).collateral_links = d.collateral_links from rfl,
    show (setFlows d f).accounts = d.accounts from rfl,
    show (setFlows d f).after_links = d.after_links from rfl,
    show (setFlows d f).security_positions = d.security_positions from rfl]
  rw [all_congr_mem d.accounts
    (fun a => decide (0 ≤ s.need a.id) && decide (s.need a.id ≤ needUB (setFlows d f) a.id))
    (fun a => decide (0 ≤ s.need a.id) && decide (s.need a.id ≤ needUB d a.id))
    (fun a _ => by
      rw [Bool.eq_iff_iff]
      simp only [Bool.and_eq_true, decide_eq_true_eq]
      rw [setFlows_needUB])]
  rw [all_congr_mem d.accounts _ _ (fun a _ => accountOk_setFlows d f s a)]
  rw [all_congr_mem d.security_positions _ _ (fun sp _ => positionOk_setFlows d f s sp)]

/-! ## Claim theorems -/

/-- Claim C1 is false as stated: `cxS1` is feasible for the model
compiled from `cxB1`, yet its raw (un-haircutted) collateral sum of 100
exceeds the credit limit 95, because the source multiplies the
collateral term by `(1 - 0.05)` in both account inequalities. -/
theorem C1_cash_constraint_counterexample :
    feasible cxB1 cxS1 = true ∧ specCashConstraintsOk cxB1 cxS1 = false := by
  constructor
  · norm_num [feasible, varBoundsOk, constraintsOk, accountOk, afterLinkOk, collateralLinkOk,
      securityPositionOk, debitSum, creditSum, collateralExpr, needUB, secDebitTrans,
      secCreditTrans, collateralQty, b2q, cxB1, cxS1]
  · norm_num [specCashConstraintsOk, specCollateralSum, debitSum, creditSum, b2q, cxB1, cxS1]

/-- Claim C1 as amended: in every feasible assignment, each account's
net settled debit minus credit is at most `initial_cash` plus the
collateral sum scaled by the haircut factor `1 − 0.05`, and the same
haircutted collateral sum is at most `credit_limit`. -/
theorem C1_cash_constraint_haircut :
    ∀ (d : NTSPInput) (s : Assignment), feasible d s = true →
      ∀ acc ∈ d.accounts,
        debitSum d s.x acc.id - creditSum d s.x acc.id
          ≤ acc.initial_cash + (1 - 5/100) * specCollateralSum d s.y acc.id ∧
        (1 - 5/100) * specCollateralSum d s.y acc.id ≤ acc.credit_limit := by
  intro d s h acc hacc
  simp only [feasible, constraintsOk, Bool.and_eq_true, List.all_eq_true] at h
  obtain ⟨_, ⟨⟨⟨haccs, _⟩, _⟩, _⟩⟩ := h
  have hc := haccs acc hacc
  simp only [accountOk, Bool.and_eq_true, decide_eq_true_eq] at hc
  obtain ⟨⟨_, h2⟩, h3⟩ := hc
  rw [collateralExpr_haircut] at h2 h3
  exact ⟨h2, h3⟩

theorem C1_cash_constraint_haircut_witness :
    debitSum cxB1 cxS1.x 0 - creditSum cxB1 cxS1.x 0
      ≤ (0 : ℚ) + (1 - 5/100) * specCollateralSum cxB1 cxS1.y 0 ∧
    (1 - 5/100) * specCollateralSum cxB1 cxS1.y 0 ≤ (95 : ℚ) :=
  C1_cash_constraint_haircut cxB1 cxS1
    (by norm_num [feasible, varBoundsOk, constraintsOk, accountOk, afterLinkOk,
      collateralLinkOk, securityPositionOk, debitSum, creditSum, collateralExpr, needUB,
      secDebitTrans, secCreditTrans, collateralQty, b2q, cxB1, cxS1])
    ⟨0, 0, 0, 95⟩ (by simp [cxB1])

/-- Claim C2 is false as stated: in `cxB2` the single transaction has
`security_flow = -1` and debits account 0, so under the claim's
flow-based reading it is an outflow on position (0, 101) and the
claimed inequality `10 ≤ 0` fails — yet the assignment is feasible,
because `get_security_transaction_lookups` never consults
`security_flow`: it treats a transaction as an outflow at its
`credit_account` and an inflow at its `debit_account`. -/
theorem C2_position_counterexample :
    feasible cxB2 cxS2 = true ∧ specPositionConstraintsOk cxB2 cxS2 = false := by
  constructor
  · norm_num [feasible, varBoundsOk, constraintsOk, accountOk, afterLinkOk, collateralLinkOk,
      securityPositionOk, debitSum, creditSum, collateralExpr, needUB, secDebitTrans,
      secCreditTrans, collateralQty, b2q, cxB2, cxS2]
  · norm_num [specPositionConstraintsOk, specOutflowTrans, specInflowTrans, collateralQty,
      b2q, cxB2, cxS2]

/-- Claim C2 as amended: for every position `(account, security)`, the
settled quantity of transactions *crediting* the account on that
security (the code's outflow bucket), minus the settled quantity of
transactions *debiting* it, is at most `initial_quantity` minus the
pledged lots on that exact position; `security_flow` plays no role. -/
theorem C2_position_rule_by_account_role :
    ∀ (d : NTSPInput) (s : Assignment),
      (∀ f : Transaction → Int, feasible (setFlows d f) s = feasible d s) ∧
      (feasible d s = true →
        ∀ sp ∈ d.security_positions,
          ((secDebitTrans d sp.account_id sp.id).map
            (fun t => (t.quantity : ℚ) * b2q (s.x t.id))).sum
            - ((secCreditTrans d sp.account_id sp.id).map
              (fun t => (t.quantity : ℚ) * b2q (s.x t.id))).sum
            ≤ (sp.initial_quantity : ℚ) - collateralQty d s.y sp) := by
  intro d s
  refine ⟨fun f => feasible_setFlows d f s, fun h sp hsp => ?_⟩
  simp only [feasible, constraintsOk, Bool.and_eq_true, List.all_eq_true] at h
  obtain ⟨_, ⟨_, hpos⟩⟩ := h
  have hc := hpos sp hsp
  simp only [securityPositionOk, decide_eq_true_eq] at hc
  exact hc

theorem C2_position_rule_witness :
    ((secDebitTrans cxB2 0 101).map (fun t => (t.quantity : ℚ) * b2q (cxS2.x t.id))).sum
      - ((secCreditTrans cxB2 0 101).map (fun t => (t.quantity : ℚ) * b2q (cxS2.x t.id))).sum
      ≤ ((0 : Int) : ℚ) - collateralQty cxB2 cxS2.y ⟨101, 0, 0⟩ :=
  (C2_position_rule_by_account_role cxB2 cxS2).2
    (by norm_num [feasible, varBoundsOk, constraintsOk, accountOk, afterLinkOk,
      collateralLinkOk, securityPositionOk, debitSum, creditSum, collateralExpr, needUB,
      secDebitTrans, secCreditTrans, collateralQty, b2q, cxB2, cxS2])
    ⟨101, 0, 0⟩ (by simp [cxB2])

/-- Claim C3: for positive lot sizes, in every feasible assignment the
activation flag of a collateral link is set exactly when one of its
triggering transactions settles; while active the pledged lots satisfy
`q_min ≤ lot_size·y ≤ q_lim`, and while inactive `y = 0`. -/
theorem C3_collateral_activation :
    ∀ (d : NTSPInput) (s : Assignment),
      (∀ l ∈ d.collateral_links, 0 < l.lot_size) →
      feasible d s = true →
      ∀ l ∈ d.collateral_links,
        (s.z l.id = true ↔ ∃ tid ∈ l.triggered_transactions, s.x tid = true) ∧
        (s.z l.id = true →
          (l.q_min : ℚ) ≤ (l.lot_size : ℚ) * (s.y l.id : ℚ) ∧
          (l.lot_size : ℚ) * (s.y l.id : ℚ) ≤ (l.q_lim : ℚ)) ∧
        (s.z l.id = false → s.y l.id = 0) := by
  intro d s hlot h l hl
  simp only [feasible, varBoundsOk, constraintsOk, Bool.and_eq_true, List.all_eq_true] at h
  obtain ⟨⟨hyb, _⟩, ⟨⟨_, hcl⟩, _⟩⟩ := h
  have hy := hyb l hl
  simp only [Bool.and_eq_true, decide_eq_true_eq] at hy
  have hc := hcl l hl
  simp only [collateralLinkOk, Bool.and_eq_true, decide_eq_true_eq, List.all_eq_true] at hc
  obtain ⟨⟨⟨htrig, hzsum⟩, hmin⟩, hmax⟩ := hc
  refine ⟨⟨?_, ?_⟩, ?_, ?_⟩
  · intro hz
    rw [hz] at hzsum
    simp only [b2q, if_pos rfl] at hzsum
    exact exists_true_of_sum_pos s.x l.triggered_transactions
      (lt_of_lt_of_le zero_lt_one hzsum)
  · rintro ⟨tid, htid, hxt⟩
    have hle := htrig tid htid
    rw [hxt] at hle
    cases hz : s.z l.id with
    | true => rfl
    | false =>
      rw [hz] at hle
      norm_num [b2q] at hle
  · intro hz
    rw [hz] at hmin hmax
    simp [b2q] at hmin hmax
    exact ⟨hmin, hmax⟩
  · intro hz
    rw [hz] at hmax
    simp [b2q] at hmax
    have hlotq : (0 : ℚ) < (l.lot_size : ℚ) := by exact_mod_cast hlot l hl
    have hy0q : (0 : ℚ) ≤ ((s.y l.id : Int) : ℚ) := by exact_mod_cast hy.1
    have hyz : ((s.y l.id : Int) : ℚ) = 0 := by nlinarith
    exact_mod_cast hyz

theorem C3_collateral_activation_witness :
    (wS3.z wL3.id = true ↔ ∃ tid ∈ wL3.triggered_transactions, wS3.x tid = true) ∧
    (wS3.z wL3.id = true →
      (wL3.q_min : ℚ) ≤ (wL3.lot_size : ℚ) * (wS3.y wL3.id : ℚ) ∧
      (wL3.lot_size : ℚ) * (wS3.y wL3.id : ℚ) ≤ (wL3.q_lim : ℚ)) ∧
    (wS3.z wL3.id = false → wS3.y wL3.id = 0) :=
  C3_collateral_activation wB3 wS3
    (fun l hl => by
      simp only [wB3, List.mem_singleton] at hl
      rw [hl]
      decide)
    (by norm_num [feasible, varBoundsOk, constraintsOk, accountOk, afterLinkOk,
      collateralLinkOk, securityPositionOk, debitSum, creditSum, collateralExpr, needUB,
      secDebitTrans, secCreditTrans, collateralQty, b2q, wB3, wS3, wL3])
    wL3 (by simp [wB3])

/-- Claim C4 is false as stated: `cxB4` has a non-empty transaction
list and a feasible assignment pledging one lot on its collateral
link, but the link's `(associated_account, security_id)` matches no
security position, so the extracted `total_loan` (a per-position
aggregation) is `0` while the claimed sum over all collateral links is
`2`. -/
theorem C4_total_loan_counterexample :
    cxB4.transactions ≠ [] ∧ feasible cxB4 cxS4 = true ∧
    (extractMetrics cxB4 cxS4.x cxS4.y).total_loan = 0 ∧
    specTotalLoan cxB4 cxS4.y = 2 ∧
    (extractMetrics cxB4 cxS4.x cxS4.y).total_loan ≠ specTotalLoan cxB4 cxS4.y := by
  refine ⟨by simp [cxB4], ?_, ?_, ?_, ?_⟩
  · norm_num [feasible, varBoundsOk, constraintsOk, accountOk, afterLinkOk, collateralLinkOk,
      securityPositionOk, debitSum, creditSum, collateralExpr, needUB, secDebitTrans,
      secCreditTrans, collateralQty, b2q, cxB4, cxS4]
  · norm_num [extractMetrics, collateralQty, b2q, cxB4, cxS4]
  · norm_num [specTotalLoan, cxB4, cxS4]
  · norm_num [extractMetrics, specTotalLoan, collateralQty, b2q, cxB4, cxS4]

/-- Claim C4 as amended: for a non-empty transaction list and
pairwise-distinct position keys, `total_cashflow` is the sum of
`cash_amount` over exactly the settled transactions, `settle_rate` is
settled count over total count and lies in `[0, 1]`, and `total_loan`
is the sum of `lot_size·y` over the collateral links whose
`(associated_account, security_id)` matches some security position —
links matching no position are omitted from the aggregation. -/
theorem C4_metrics_equations :
    ∀ (d : NTSPInput) (x : Int → Bool) (y : Int → Int),
      d.transactions ≠ [] →
      d.security_positions.Pairwise
        (fun p q => ¬(p.account_id = q.account_id ∧ p.id = q.id)) →
      (extractMetrics d x y).total_cashflow
          = (((d.transactions.filter (fun t => x t.id)).map (fun t => t.cash_amount)).sum) ∧
      (extractMetrics d x y).settle_rate
          = ((d.transactions.filter (fun t => x t.id)).length : ℚ)
              / (d.transactions.length : ℚ) ∧
      0 ≤ (extractMetrics d x y).settle_rate ∧
      (extractMetrics d x y).settle_rate ≤ 1 ∧
      (extractMetrics d x y).total_loan
          = (((d.collateral_links.filter (fun l => d.security_positions.any
              (fun sp => l.associated_account == sp.account_id && l.security_id == sp.id))).map
                (fun l => (l.lot_size : ℚ) * (y l.id : ℚ))).sum) := by
  intro d x y htne hP
  have hlen : 0 < (d.transactions.length : ℚ) := by
    have := List.length_pos.2 htne
    exact_mod_cast this
  have hrate : (extractMetrics d x y).settle_rate
      = ((d.transactions.filter (fun t => x t.id)).length : ℚ)
          / (d.transactions.length : ℚ) := by
    simp only [extractMetrics]
    rw [sum_b2q_count]
  refine ⟨?_, hrate, ?_, ?_, ?_⟩
  · simp only [extractMetrics]
    exact sum_b2q_mul x (fun t => t.cash_amount) d.transactions
  · rw [hrate]
    positivity
  · rw [hrate]
    rw [div_le_one hlen]
    exact_mod_cast List.length_filter_le _ _
  · simp only [extractMetrics]
    exact total_loan_aggregation d y hP

theorem C4_metrics_equations_witness :
    (extractMetrics cxB4 cxS4.x cxS4.y).total_cashflow
      = (((cxB4.transactions.filter (fun t => cxS4.x t.id)).map
          (fun t => t.cash_amount)).sum) :=
  (C4_metrics_equations cxB4 cxS4.x cxS4.y (by simp [cxB4]) (by simp [cxB4])).1

/-- Claim C5: whenever the full-set denominators are nonzero, the
compiled objective is exactly
`λ·(Σ w·a·x)/(Σ w·a) + (1−λ)·(Σ w·x)/(Σ w)`, both denominators being
constants over the whole transaction list. -/
theorem C5_objective_formula :
    ∀ (d : NTSPInput) (x : Int → Bool) (lam : ℚ),
      d.transactions ≠ [] →
      ((d.transactions.map (fun t => t.weight * t.cash_amount)).sum) ≠ 0 →
      ((d.transactions.map (fun t => t.weight)).sum) ≠ 0 →
      0 ≤ lam → lam ≤ 1 →
      addObjective d x lam = some (specObjective d x lam) := by
  intro d x lam _ h1 h2 _ _
  unfold addObjective specObjective
  rw [if_neg (by push_neg; exact ⟨h1, h2⟩)]
  rw [mul_one_div, mul_one_div]

theorem C5_objective_formula_witness :
    addObjective wB5 (fun _ => true) (1/2)
      = some (specObjective wB5 (fun _ => true) (1/2)) :=
  C5_objective_formula wB5 (fun _ => true) (1/2) (by simp [wB5])
    (by norm_num [wB5]) (by norm_num [wB5]) (by norm_num) (by norm_num)

/-- Claim C6 is false as stated: `cxB6` violates all three input
invariants (its only transaction has `debit_account = credit_account`,
its collateral link has `q_min > q_lim`, and the total weight is zero),
yet nothing rejects it — the compiled model even admits a feasible
assignment that settles the self-transaction, and the zero total
weight surfaces only as a division-by-zero inside `add_objective`,
i.e. during compilation, after the decision variables exist. -/
theorem C6_no_validation_counterexample :
    (∃ t ∈ cxB6.transactions, t.debit_account = t.credit_account) ∧
    (∃ l ∈ cxB6.collateral_links, l.q_lim < l.q_min) ∧
    ((cxB6.transactions.map (fun t => t.weight)).sum) = 0 ∧
    feasible cxB6 cxS6 = true ∧
    addObjective cxB6 cxS6.x (1/2) = none := by
  refine ⟨⟨⟨0, 7, 0, 0, 0, 101, 10, -1⟩, by simp [cxB6], rfl⟩,
    ⟨⟨0, 0, 1, 1, 5, 3, [], 101⟩, by simp [cxB6], by norm_num⟩, ?_, ?_, ?_⟩
  · norm_num [cxB6]
  · norm_num [feasible, varBoundsOk, constraintsOk, accountOk, afterLinkOk, collateralLinkOk,
      securityPositionOk, debitSum, creditSum, collateralExpr, needUB, secDebitTrans,
      secCreditTrans, collateralQty, b2q, cxB6, cxS6]
  · norm_num [addObjective, cxB6, cxS6]

/-- Claim C6 as amended: the system performs no construction-time
validation.  Every bundle with nonnegative cash, credit limits,
inventories, lot caps and cash amounts — including bundles with
self-transactions, inverted `q_min > q_lim` links, or zero total
weight — is compiled into a model that the all-zero assignment
satisfies; the zero-weight case fails only inside objective
construction. -/
theorem C6_compiles_without_validation :
    ∀ d : NTSPInput,
      (∀ a ∈ d.accounts, 0 ≤ a.initial_cash ∧ 0 ≤ a.credit_limit) →
      (∀ sp ∈ d.security_positions, 0 ≤ sp.initial_quantity) →
      (∀ l ∈ d.collateral_links, 0 ≤ l.q_lim) →
      (∀ t ∈ d.transactions, 0 ≤ t.cash_amount) →
      feasible d zeroAssign = true := by
  intro d hacc hsp hql hca
  have hzero : ∀ (L : List Transaction) (f : Transaction → ℚ),
      ((L.map (fun t => f t * b2q (zeroAssign.x t.id))).sum) = 0 := by
    intro L f
    rw [← sum_map_zero L]
    exact congrArg List.sum (List.map_congr_left (fun t _ => by simp [zeroAssign, b2q]))
  simp only [feasible, varBoundsOk, constraintsOk, Bool.and_eq_true, List.all_eq_true]
  refine ⟨⟨?_, ?_⟩, ⟨⟨⟨?_, ?_⟩, ?_⟩, ?_⟩⟩
  · intro l hl
    simp only [zeroAssign, Bool.and_eq_true, decide_eq_true_eq]
    exact ⟨le_refl 0, hql l hl⟩
  · intro a _
    simp only [zeroAssign, Bool.and_eq_true, decide_eq_true_eq]
    refine ⟨le_refl 0, ?_⟩
    unfold needUB
    apply List.sum_nonneg
    intro q hq
    rcases List.mem_map.1 hq with ⟨t, ht, rfl⟩
    exact hca t (List.mem_filter.1 ht).1
  · intro a ha
    simp only [accountOk, Bool.and_eq_true, decide_eq_true_eq]
    have hds : debitSum d zeroAssign.x a.id = 0 := hzero _ _
    have hcs : creditSum d zeroAssign.x a.id = 0 := hzero _ _
    have hce : collateralExpr d zeroAssign.y a.id = 0 := by
      unfold collateralExpr
      rw [← sum_map_zero (d.collateral_links.filter
        (fun l => l.associated_account == a.id))]
      exact congrArg List.sum (List.map_congr_left (fun l _ => by simp [zeroAssign]))
    rw [hds, hcs, hce]
    rcases hacc a ha with ⟨hc1, hc2⟩
    refine ⟨⟨?_, ?_⟩, ?_⟩
    · simp only [zeroAssign]
      linarith
    · linarith
    · exact hc2
  · intro al _
    simp only [afterLinkOk, zeroAssign, decide_eq_true_eq, le_refl]
  · intro l _
    have hsum : ((l.triggered_transactions.map
        (fun tid => b2q (zeroAssign.x tid))).sum) = 0 := by
      rw [← sum_map_zero l.triggered_transactions]
      exact congrArg List.sum (List.map_congr_left (fun tid _ => by simp [zeroAssign, b2q]))
    simp only [collateralLinkOk, Bool.and_eq_true, decide_eq_true_eq, List.all_eq_true]
    refine ⟨⟨⟨?_, ?_⟩, ?_⟩, ?_⟩
    · intro tid _
      simp [zeroAssign, b2q]
    · rw [hsum]
      simp [zeroAssign, b2q]
    · simp [zeroAssign, b2q]
    · simp [zeroAssign, b2q]
  · intro sp hsp'
    simp only [securityPositionOk, decide_eq_true_eq]
    have hdq : ((secDebitTrans d sp.account_id sp.id).map
        (fun t => (t.quantity : ℚ) * b2q (zeroAssign.x t.id))).sum = 0 := hzero _ _
    have hcq : ((secCreditTrans d sp.account_id sp.id).map
        (fun t => (t.quantity : ℚ) * b2q (zeroAssign.x t.id))).sum = 0 := hzero _ _
    have hcol : collateralQty d zeroAssign.y sp = 0 := by
      unfold collateralQty
      rw [← sum_map_zero (d.collateral_links.filter
        (fun l => l.associated_account == sp.account_id && l.security_id == sp.id))]
      exact congrArg List.sum (List.map_congr_left (fun l _ => by simp [zeroAssign]))
    rw [hdq, hcq, hcol]
    have := hsp sp hsp'
    have hq : (0 : ℚ) ≤ (sp.initial_quantity : ℚ) := by exact_mod_cast this
    linarith

theorem C6_compiles_without_validation_witness :
    feasible cxB6 zeroAssign = true :=
  C6_compiles_without_validation cxB6
    (fun a ha => by
      simp only [cxB6, List.mem_singleton] at ha
      rw [ha]
      norm_num)
    (fun sp hsp => by
      simp only [cxB6, List.mem_singleton] at hsp
      rw [hsp]
      norm_num)
    (fun l hl => by
      simp only [cxB6, List.mem_singleton] at hl
      rw [hl]
      norm_num)
    (fun t ht => by
      simp only [cxB6, List.mem_singleton] at ht
      rw [ht]
      norm_num)

/-- Claim C7 identifies a code bug: `_transactions_from_csv` passes
`id`, `cash_amount`, `weight`, `debit_account = hash(to)`,
`credit_account = hash(from)`, `security_id` and `quantity` to the
`Transaction` constructor, but omits the `security_flow` keyword even
though `DataModels.Transaction` declares it as a required field, so
pydantic's required-field validation rejects the call on every ledger
row — no Transaction is ever built. -/
theorem C7_deriver_omits_required_field :
    (kwargsOfRow cxBatch7 (fun p => p) 0 cxRow7).security_flow = none ∧
    (kwargsOfRow cxBatch7 (fun p => p) 0 cxRow7).debit_account = some 2 ∧
    (kwargsOfRow cxBatch7 (fun p => p) 0 cxRow7).credit_account = some 1 ∧
    (kwargsOfRow cxBatch7 (fun p => p) 0 cxRow7).cash_amount
      = some (((cxRow7.price * (cxRow7.quantity : ℚ) : ℚ)) : ℝ) ∧
    pydanticAccepts (kwargsOfRow cxBatch7 (fun p => p) 0 cxRow7) = false :=
  ⟨rfl, rfl, rfl, rfl, rfl⟩

/-- Claim C8: in every feasible assignment, each after-link `(t1, t2)`
forces settlement of `t1` whenever `t2` settles; and the constraint is
one-directional — there is a feasible assignment settling `t1` but not
`t2`. -/
theorem C8_after_link_ordering (d : NTSPInput) (s : Assignment)
    (h : feasible d s = true) :
    (∀ al ∈ d.after_links, s.x al.t2 = true → s.x al.t1 = true) ∧
    (∃ d' : NTSPInput, ∃ s' : Assignment, feasible d' s' = true ∧
      ∃ al ∈ d'.after_links, s'.x al.t1 = true ∧ s'.x al.t2 = false) := by
  constructor
  · intro al hal hx2
    simp only [feasible, constraintsOk, Bool.and_eq_true, List.all_eq_true] at h
    obtain ⟨_, ⟨⟨⟨_, hafter⟩, _⟩, _⟩⟩ := h
    have hc := hafter al hal
    simp only [afterLinkOk, decide_eq_true_eq] at hc
    rw [hx2] at hc
    cases hx1 : s.x al.t1 with
    | true => rfl
    | false =>
      rw [hx1] at hc
      norm_num [b2q] at hc
  · refine ⟨wB8, wS8, ?_, ⟨0, 1⟩, by simp [wB8], rfl, rfl⟩
    norm_num [feasible, varBoundsOk, constraintsOk, accountOk, afterLinkOk, collateralLinkOk,
      securityPositionOk, debitSum, creditSum, collateralExpr, needUB, secDebitTrans,
      secCreditTrans, collateralQty, b2q, wB8, wS8]

theorem C8_after_link_ordering_witness :
    (∀ al ∈ wB8.after_links, wS8.x al.t2 = true → wS8.x al.t1 = true) ∧
    (∃ d' : NTSPInput, ∃ s' : Assignment, feasible d' s' = true ∧
      ∃ al ∈ d'.after_links, s'.x al.t1 = true ∧ s'.x al.t2 = false) :=
  C8_after_link_ordering wB8 wS8
    (by norm_num [feasible, varBoundsOk, constraintsOk, accountOk, afterLinkOk,
      collateralLinkOk, securityPositionOk, debitSum, creditSum, collateralExpr, needUB,
      secDebitTrans, secCreditTrans, collateralQty, b2q, wB8, wS8])

/-- Claim C9: after the triggered-transaction assembly step shared by
both synthesis modes, a collateral link's `triggered_transactions` are
exactly the ids of the transactions whose `security_id` equals the
link's — with no condition on the link's associated account, so every
same-security transaction triggers the link. -/
theorem C9_triggered_all_same_security :
    ∀ (trans : List Transaction) (links : List CollateralLink),
      ∀ cl ∈ assembleTriggered trans links, ∀ tid : Int,
        tid ∈ cl.triggered_transactions ↔
          ∃ t ∈ trans, t.id = tid ∧ t.security_id = cl.security_id := by
  intro trans links cl hcl tid
  rcases List.mem_map.1 hcl with ⟨cl0, _, rfl⟩
  simp only [setTriggered, List.mem_map, List.mem_filter, beq_iff_eq]
  constructor
  · rintro ⟨t, ⟨ht, hsec⟩, hid⟩
    exact ⟨t, ht, hid, hsec⟩
  · rintro ⟨t, ht, hid, hsec⟩
    exact ⟨t, ⟨ht, hsec⟩, hid⟩

theorem C9_triggered_all_same_security_witness :
    5 ∈ (setTriggered wTrans9 wL9).triggered_transactions ↔
      ∃ t ∈ wTrans9, t.id = 5 ∧ t.security_id = (setTriggered wTrans9 wL9).security_id :=
  C9_triggered_all_same_security wTrans9 [wL9] (setTriggered wTrans9 wL9)
    (by simp [assembleTriggered]) 5

/-- Claim C10: on a bundle whose entities carry only the declared
fields, the compiler creates no `pab_need` or `sbs_seg` variables, the
SBS segregation pass adds no constraints, and the emitted constraint
set coincides with the base families (account need/balance/credit
limit, after-link ordering, collateral-link activation and bounds,
position conservation) of the core model. -/
theorem C10_plain_bundle_is_base_model :
    ∀ (d : ExtInput) (s : ExtAssignment), plainInput d = true →
      pabNeedIds d = [] ∧ sbsSegIds d = [] ∧ sbsPassConstraints d s = [] ∧
      extConstraintsOk d s = constraintsOk d.core s.core := by
  intro d s h
  simp only [plainInput, Bool.and_eq_true, List.all_eq_true] at h
  obtain ⟨⟨hA, _⟩, _⟩ := h
  have hAn : ∀ a ∈ d.accounts, a.is_pab = none ∧ a.has_sbs = none := by
    intro a ha
    have := hA a ha
    simp only [plainAccount, Bool.and_eq_true, Option.isNone_iff_eq_none] at this
    exact ⟨this.1.1.1.1.1, this.1.1.1.1.2⟩
  have hsbs : sbsPassConstraints d s = [] :=
    sbsPass_plain d s (fun a ha => (hAn a ha).2)
  refine ⟨?_, ?_, hsbs, ?_⟩
  · unfold pabNeedIds
    rw [List.filter_eq_nil_iff.2 (fun a ha => by simp [hasTrue, (hAn a ha).1])]
    rfl
  · unfold sbsSegIds
    rw [List.filter_eq_nil_iff.2 (fun a ha => by simp [hasTrue, (hAn a ha).2])]
    rfl
  · unfold extConstraintsOk constraintsOk
    rw [hsbs]
    have e1 : d.core.accounts.all (accountOk d.core s.core)
        = d.accounts.all (extAccountOk d s) := by
      show (d.accounts.map ExtAccount.core).all (accountOk d.core s.core)
        = d.accounts.all (extAccountOk d s)
      rw [all_map_comp]
      exact all_congr_mem _ _ _ (fun a ha => accountOk_core d s a (hA a ha))
    have e4 : d.core.security_positions.all (securityPositionOk d.core s.core)
        = d.security_positions.all (extSecurityPositionOk d s) := by
      show (d.security_positions.map ExtPosition.core).all (securityPositionOk d.core s.core)
        = d.security_positions.all (extSecurityPositionOk d s)
      rw [all_map_comp]
      exact all_congr_mem _ _ _ (fun p _ => positionOk_core d s p)
    rw [e1, e4]
    simp only [List.all_nil, Bool.and_true]
    rfl

theorem C10_plain_bundle_is_base_model_witness :
    pabNeedIds wE10 = [] ∧ sbsSegIds wE10 = [] ∧
    sbsPassConstraints wE10 wES10 = [] ∧
    extConstraintsOk wE10 wES10 = constraintsOk (ExtInput.core wE10) (ExtAssignment.core wES10) :=
  C10_plain_bundle_is_base_model wE10 wES10
    (by norm_num [plainInput, plainAccount, plainTransaction, plainPosition, wE10])

end SettlementOpt
